import Mathlib

/-!
Verification of the extraction orchestration and normalization pipeline of
`app.py` (engineering-drawing datasheet extractor).  The Python source is
shallowly embedded: strings become `List Char`, Python dicts become ordered
association lists with last-write-wins insertion, and the recursive
retry-on-quota control flow is modelled with explicit fuel.  Each definition
mirrors one function or code block of `src/app.py`; the theorems at the end of
the file settle the frozen claims about that code.
-/

set_option autoImplicit false

namespace Vision

/-- Strings are modelled as lists of characters. -/
abbrev Str := List Char

/-- Conversion from Lean string literals into the model representation. -/
def s2l (s : String) : Str := s.data

/-- Characters removed by the Python strip method (ASCII whitespace). -/
def pySpace (c : Char) : Bool :=
  c == ' ' || c == '\t' || c == '\n' || c == '\r' || c == '\x0b' || c == '\x0c'

/-- Python `str.lstrip()`. -/
def lstrip : Str → Str
  | [] => []
  | c :: rest => if pySpace c then lstrip rest else c :: rest

/-- Python `str.strip()`. -/
def strip (s : Str) : Str :=
  (lstrip (lstrip s).reverse).reverse

/-- Whether `pat` is an initial segment of the second list
(Python `str.startswith`). -/
def startsWithCL : Str → Str → Bool
  | [], _ => true
  | _ :: _, [] => false
  | a :: as, b :: bs => a == b && startsWithCL as bs

/-- Substring containment, the Python membership test of one string in another. -/
def containsSub (pat : Str) : Str → Bool
  | [] => startsWithCL pat []
  | c :: rest => startsWithCL pat (c :: rest) || containsSub pat rest

/-- Python `s.split(sep, 1)` guarded by `sep in s`: the first occurrence of a
separator character splits the string in two; `none` when absent. -/
def splitFirst (sep : Char) : Str → Option (Str × Str)
  | [] => none
  | c :: rest =>
    if c == sep then some ([], rest)
    else
      match splitFirst sep rest with
      | none => none
      | some (a, b) => some (c :: a, b)

/-- Worker for `splitChar`, accumulating the current chunk reversed. -/
def splitCharAux (sep : Char) : Str → Str → List Str
  | [], acc => [acc.reverse]
  | c :: rest, acc =>
    if c == sep then acc.reverse :: splitCharAux sep rest []
    else splitCharAux sep rest (c :: acc)

/-- Python `s.split(sep)` for a one-character separator. -/
def splitChar (sep : Char) (s : Str) : List Str := splitCharAux sep s []

/-- Worker for `splitSub`; the fuel dominates the number of characters still
to scan, so the top-level wrapper never exhausts it. -/
def splitSubGo (sep : Str) : Nat → Str → Str → List Str
  | 0, s, acc => [acc.reverse ++ s]
  | _ + 1, [], acc => [acc.reverse]
  | fuel + 1, c :: rest, acc =>
    if startsWithCL sep (c :: rest) then
      acc.reverse :: splitSubGo sep fuel (List.drop (sep.length - 1) rest) []
    else splitSubGo sep fuel rest (c :: acc)

/-- Python `s.split(sep)` for a multi-character separator. -/
def splitSub (sep s : Str) : List Str := splitSubGo sep (s.length + 1) s []

/-- A Python `dict` with string keys and values: an ordered association list
with unique keys; `dictInsert` updates in place or appends. -/
abbrev Dict := List (Str × Str)

/-- Python `d.get(k, dflt)`. -/
def dictGet (k dflt : Str) : Dict → Str
  | [] => dflt
  | (q, v) :: rest => if q = k then v else dictGet k dflt rest

/-- Python `k in d`. -/
def dictHasKey (k : Str) : Dict → Bool
  | [] => false
  | (q, _) :: rest => if q = k then true else dictHasKey k rest

/-- Python `d[k] = v`: overwrite in place when the key exists, append
otherwise (insertion order preserved). -/
def dictInsert (d : Dict) (k v : Str) : Dict :=
  if dictHasKey k d then d.map (fun p => if p.1 = k then (k, v) else p)
  else d ++ [(k, v)]

/-! ### `parse_ai_response` (src/app.py lines 117-132) -/

/-- The bracketed-placeholder test of `parse_ai_response`: the lower-cased
value contains the text [value] or the text [values]. -/
def containsPlaceholder (v : Str) : Bool :=
  containsSub (s2l "[value]") (v.map Char.toLower) ||
    containsSub (s2l "[values]") (v.map Char.toLower)

/-- Value cleanup inside the parser loop: a value still containing a
placeholder token is replaced by the empty string. -/
def normalizeValue (v : Str) : Str :=
  if containsPlaceholder v then [] else v

/-- The parser loop of `parse_ai_response`: for each line containing a colon,
split on the first colon, strip and upper-case the key, strip the value, blank
placeholder values, and store the binding in the result dict. -/
def parse_lines : Dict → List Str → Dict
  | results, [] => results
  | results, line :: rest =>
    match splitFirst ':' line with
    | none => parse_lines results rest
    | some (k0, v0) =>
      parse_lines
        (dictInsert results ((strip k0).map Char.toUpper)
          (normalizeValue (strip v0))) rest

/-- `parse_ai_response(response_text)`: split into lines and run the parser
loop on an initially empty dict. -/
def parse_ai_response (text : Str) : Dict :=
  parse_lines [] (splitChar '\n' text)

/-- The key a `key: value` line would contribute to the parsed record, when
the line contains a colon. -/
def keyFromLine (line : Str) : Option Str :=
  (splitFirst ':' line).map (fun p => (strip p.1).map Char.toUpper)

/-- Whether some line of `text` contributes the key `k`. -/
def textHasKey (text k : Str) : Bool :=
  (splitChar '\n' text).any (fun l => keyFromLine l = some k)

/-! ### `get_parameters_for_type` (src/app.py lines 394-450) -/

/-- Expected field names per drawing type; the catch-all branch returns the
empty list. -/
def get_parameters_for_type (drawingType : Str) : List Str :=
  if drawingType = s2l "CYLINDER" then
    [s2l "CYLINDER ACTION", s2l "BORE DIAMETER", s2l "ROD DIAMETER",
     s2l "STROKE LENGTH", s2l "CLOSE LENGTH", s2l "OPERATING PRESSURE",
     s2l "OPERATING TEMPERATURE", s2l "MOUNTING", s2l "ROD END",
     s2l "FLUID", s2l "DRAWING NUMBER"]
  else if drawingType = s2l "VALVE" then
    [s2l "MODEL NO", s2l "SIZE OF VALVE", s2l "PRESSURE RATING", s2l "MAKE"]
  else if drawingType = s2l "GEARBOX" then
    [s2l "TYPE", s2l "NUMBER OF TEETH", s2l "MODULE", s2l "MATERIAL",
     s2l "PRESSURE ANGLE", s2l "FACE WIDTH, LENGTH", s2l "HAND",
     s2l "MOUNTING", s2l "HELIX ANGLE", s2l "DRAWING NUMBER"]
  else if drawingType = s2l "NUT" then
    [s2l "TYPE", s2l "SIZE", s2l "PROPERTY CLASS", s2l "THREAD PITCH",
     s2l "COATING", s2l "NUT STANDARD", s2l "DRAWING NUMBER"]
  else if drawingType = s2l "LIFTING_RAM" then
    [s2l "HEIGHT", s2l "TOTAL STROKE", s2l "PISTON STROKE",
     s2l "PISTON LIFTING FORCE", s2l "WEIGHT", s2l "OIL VOLUME",
     s2l "DRAWING NUMBER"]
  else []

/-- The five drawing types with built-in analysis support. -/
def builtinTypes : List Str :=
  [s2l "CYLINDER", s2l "VALVE", s2l "GEARBOX", s2l "NUT", s2l "LIFTING_RAM"]

/-- Boolean membership in a list of model strings. -/
def memS (x : Str) : List Str → Bool
  | [] => false
  | y :: ys => if y = x then true else memS x ys

/-! ### Operating-temperature range reduction
(src/app.py lines 205-222, inside `analyze_cylinder_image`) -/

/-- The temperature post-processing block: on a non-empty stripped value,
choose the upper bound of a range (after `TO`, after `+`, or the whole value),
cut at `DEG`, strip, keep only digits and decimal points, and re-append
` DEG C`; if nothing remains, the stored value is left unchanged. -/
def processOperatingTemperature (orig : Str) : Str :=
  let temp := strip orig
  if temp = [] then orig
  else
    let maxTemp :=
      if containsSub (s2l "TO") (temp.map Char.toUpper) then
        strip (List.headD
          (splitSub (s2l "DEG")
            (List.getLastD (splitSub (s2l "TO") (temp.map Char.toUpper)) []))
          [])
      else if temp.contains '+' then
        strip (List.headD
          (splitSub (s2l "DEG") (List.getLastD (splitChar '+' temp) [])) [])
      else
        strip (List.headD (splitSub (s2l "DEG") temp) [])
    let cleaned := maxTemp.filter (fun c => c.isDigit || c == '.')
    if cleaned = [] then orig else cleaned ++ s2l " DEG C"

/-! ### Classifier response resolution
(src/app.py lines 386-390, inside `identify_drawing_type`) -/

/-- The six tokens the classifier may answer with. -/
def knownTypeTokens : List Str :=
  [s2l "CYLINDER", s2l "VALVE", s2l "GEARBOX", s2l "NUT",
   s2l "LIFTING_RAM", s2l "UNKNOWN"]

/-- Post-processing of the classifier text: when the result carries no error
marker, strip and upper-case it and test it for membership in the token list;
a literal UNKNOWN becomes the identification-failure message; any other
response falls through and is returned unchanged. -/
def identify_drawing_type_resolve (result : Str) : Str :=
  if containsSub (s2l "❌") result then result
  else
    let drawingType := (strip result).map Char.toUpper
    if memS drawingType knownTypeTokens then
      if drawingType = s2l "UNKNOWN" then
        s2l "❌ Could not identify drawing type"
      else drawingType
    else result

/-! ### Record scoring at extraction completion
(src/app.py lines 1460-1469 success path, 1486-1490 failure path) -/

/-- Decimal digits of a natural number; the fuel argument bounds the
recursion depth and is never exhausted by the wrapper. -/
def natDigitsGo : Nat → Nat → Str
  | 0, _ => []
  | fuel + 1, n =>
    if n < 10 then [Nat.digitChar n]
    else natDigitsGo fuel (n / 10) ++ [Nat.digitChar (n % 10)]

/-- Decimal rendering of a natural number, Python `str(n)` / `f-string`. -/
def natToChars (n : Nat) : Str := natDigitsGo (n + 1) n

/-- Round `num / den` to the nearest integer, ties to even; this mirrors the
rounding the Python float formatting to zero decimals applies to the exact ratio (the
ratios displayed by the app are well inside double precision). -/
def roundHalfEvenNat (num den : Nat) : Nat :=
  let q := num / den
  let r := num % den
  if 2 * r < den then q
  else if 2 * r > den then q + 1
  else if q % 2 = 0 then q else q + 1

/-- One row of the drawings table: status, extracted-fields count and
confidence, all as displayed strings. -/
structure DrawingRow where
  status : Str
  count : Str
  confidence : Str
deriving DecidableEq

/-- Count of non-empty expected fields: the number of parameters whose
looked-up value is non-empty after stripping. -/
def countNonEmpty (parameters : List Str) (parsed : Dict) : Nat :=
  (parameters.filter (fun k => !(strip (dictGet k [] parsed)).isEmpty)).length

/-- The success-path row update: parameters for the type, count of non-empty
fields, completion status, count string and confidence percentage.  The
confidence expression `non_empty_fields / total_fields * 100` has no zero
guard in the source; a type with an empty parameter list would raise
`ZeroDivisionError`, modelled as `none`. -/
def update_on_success (drawingType : Str) (parsed : Dict) : Option DrawingRow :=
  if (get_parameters_for_type drawingType).length = 0 then none
  else some
    { status :=
        if countNonEmpty (get_parameters_for_type drawingType) parsed
            = (get_parameters_for_type drawingType).length
        then s2l "Completed" else s2l "Needs Review!"
      count :=
        natToChars (countNonEmpty (get_parameters_for_type drawingType) parsed)
          ++ s2l "/" ++ natToChars (get_parameters_for_type drawingType).length
      confidence :=
        natToChars (roundHalfEvenNat
            (100 * countNonEmpty (get_parameters_for_type drawingType) parsed)
            (get_parameters_for_type drawingType).length) ++ s2l "%" }

/-- The failure-path row update (extraction returned an error result). -/
def update_on_failure : DrawingRow :=
  { status := s2l "Failed", count := s2l "0/0", confidence := s2l "0%" }

/-! ### Credential rotation (src/app.py lines 44-52 `switch_api_key`,
54-88 `handle_api_response`) -/

/-- Process-wide key configuration and the currently selected key.  `none`
models an unset (or falsy) environment variable. -/
structure KeyState where
  apiKey : Option Str
  apiKey1 : Option Str
  current : Option Str
deriving DecidableEq

/-- `switch_api_key`: toggle to the other configured key; the Boolean says
whether a switch happened. -/
def switch_api_key (ks : KeyState) : KeyState × Bool :=
  if ks.current = ks.apiKey ∧ ks.apiKey1 ≠ none then
    ({ ks with current := ks.apiKey1 }, true)
  else if ks.current = ks.apiKey1 ∧ ks.apiKey ≠ none then
    ({ ks with current := ks.apiKey }, true)
  else (ks, false)

/-- The `error` field of the response JSON as `handle_api_response` sees it:
absent, present but not a dict, or a dict with optional `code` and a
`message`. -/
inductive ErrField where
  | absent
  | nonDict
  | dict (code : Option Int) (message : Str)
deriving DecidableEq

/-- What `handle_api_response` does after inspecting the error field:
invoke the originating extraction function again (after a key switch),
surface an error message and return `None`, or pass the JSON through. -/
inductive HandleAction where
  | retry
  | returnedNone (msg : Str)
  | passthrough
deriving DecidableEq

/-- `handle_api_response`: only a 429 code whose message contains `quota`
(case-insensitively) triggers a key switch and retry; 400, 401, 403, 500 and
any other explicit error are surfaced immediately with no switch. -/
def handle_api_response (ks : KeyState) (e : ErrField) : KeyState × HandleAction :=
  match e with
  | .absent => (ks, .passthrough)
  | .nonDict => (ks, .passthrough)
  | .dict code message =>
    if code = some 429 ∧ containsSub (s2l "quota") (message.map Char.toLower) then
      match switch_api_key ks with
      | (ks2, true) => (ks2, .retry)
      | (ks2, false) =>
        (ks2, .returnedNone (s2l "❌ All API keys have reached their quota limits!"))
    else if code = some 400 then
      (ks, .returnedNone (s2l "❌ Bad request: Please check the image format"))
    else if code = some 401 then
      (ks, .returnedNone (s2l "❌ Authentication failed: Please check your API key"))
    else if code = some 403 then
      (ks, .returnedNone (s2l "❌ Access forbidden: Please check your API permissions"))
    else if code = some 500 then
      (ks, .returnedNone (s2l "❌ Server error: Please try again later"))
    else
      (ks, .returnedNone (s2l "❌ API Error: " ++ message))

/-- A representative 429 body message containing the word `quota`. -/
def quotaMsg : Str := s2l "You exceeded your current quota"

/-- Outcome of the retry recursion under bounded fuel. -/
inductive RetryResult where
  | fuelOut
  | errorMsg (msg : Str)
deriving DecidableEq

/-- The retry recursion of the extraction functions in the scenario where
every attempt, with every key, answers HTTP 429 with a quota message: each
attempt runs `handle_api_response`, and a `retry` action re-invokes the
extraction function (one unit of fuel per attempt). -/
def retry_all_quota : Nat → KeyState → RetryResult
  | 0, _ => .fuelOut
  | fuel + 1, ks =>
    match handle_api_response ks (.dict (some 429) quotaMsg) with
    | (ks2, .retry) => retry_all_quota fuel ks2
    | (_, .returnedNone msg) => .errorMsg msg
    | (_, .passthrough) => .errorMsg []

/-! ### Save-changes handler (src/app.py lines 1722-1743) -/

/-- Session state touched by the Save Changes button: the record of the
selected drawing, its pending edits, the collected feedback, the popup flag
and the table row of the drawing. -/
structure SaveState where
  results : Dict
  edited : Dict
  feedbackData : List (Str × Str × Str)
  showFeedbackPopup : Bool
  row : DrawingRow
deriving DecidableEq

/-- Feedback collection: one `(param, original, corrected)` triple for each
edit that is non-empty after stripping and differs from the stored value. -/
def collect_feedback (results : Dict) : Dict → List (Str × Str × Str)
  | [] => []
  | (p, v) :: rest =>
    if strip v ≠ [] ∧ v ≠ dictGet p [] results then
      (p, dictGet p [] results, v) :: collect_feedback results rest
    else collect_feedback results rest

/-- Record update: every non-empty edit overwrites the stored value; empty
edits are skipped. -/
def apply_edits (results : Dict) : Dict → Dict
  | [] => results
  | (p, v) :: rest =>
    apply_edits (if strip v ≠ [] then dictInsert results p v else results) rest

/-- The Save Changes handler: collect feedback against the pre-edit record,
apply the non-empty edits, and raise the popup when feedback exists.  The
handler does not touch the drawings table, so the row (status, count,
confidence) carries over unchanged. -/
def save_changes (st : SaveState) : SaveState :=
  let fb := collect_feedback st.results st.edited
  { st with
    results := apply_edits st.results st.edited
    feedbackData := if fb = [] then st.feedbackData else fb
    showFeedbackPopup := if fb = [] then st.showFeedbackPopup else true }

/-- Number of feedback deltas recorded for a given field. -/
def countDeltasFor (p : Str) : List (Str × Str × Str) → Nat
  | [] => 0
  | d :: rest => (if d.1 = p then 1 else 0) + countDeltasFor p rest

/-! ### Drawing identifier resolution and the session loop
(src/app.py lines 1402-1469 of `main`) -/

/-- Identifier field preference (lines 1448-1450): MODEL NO for valves,
DRAWING NUMBER otherwise. -/
def resolved_dn (drawingType : Str) (parsed : Dict) : Str :=
  if drawingType = s2l "VALVE" then dictGet (s2l "MODEL NO") [] parsed
  else dictGet (s2l "DRAWING NUMBER") [] parsed

/-- Identifier resolution (lines 1448-1453): when the preferred field value
is empty or the literal Unknown, synthesize the identifier from the drawing
type, the table length after the in-progress row was appended, and the page
suffix; the Boolean reports whether the identifier was synthesized. -/
def resolve_identifier (drawingType : Str) (parsed : Dict) (tableLen : Nat)
    (suffix : Str) : Bool × Str :=
  if resolved_dn drawingType parsed = []
      ∨ resolved_dn drawingType parsed = s2l "Unknown" then
    (true, drawingType ++ s2l "_" ++ natToChars tableLen ++ suffix)
  else (false, resolved_dn drawingType parsed)

/-- One image whose drawing type was identified: its type, the parsed record
when extraction succeeded (`none` models an error result), and the page
suffix (empty for a single-image file, `_page_k` for page k of a multi-page
file). -/
structure ProcEvent where
  drawingType : Str
  outcome : Option Dict
  suffix : Str
deriving DecidableEq

/-- Per-event result of the processing loop. -/
inductive EventResult where
  | failed
  | extractedId (id : Str)
  | synthesizedId (id : Str)
deriving DecidableEq

/-- Outcome of one identified image when the table holds `tableLen` rows
(its own freshly appended row included): a failed extraction keeps no
identifier, a successful one resolves an extracted or synthesized one. -/
def stepResult (e : ProcEvent) (tableLen : Nat) : EventResult :=
  match e.outcome with
  | none => .failed
  | some parsed =>
    match resolve_identifier e.drawingType parsed tableLen e.suffix with
    | (true, id) => .synthesizedId id
    | (false, id) => .extractedId id

/-- The processing loop: each identified image first appends a row to the
table (so the table length seen by identifier resolution is the running count
including the row of the image itself), then resolves an identifier on success. -/
def runSessionAux : Nat → List ProcEvent → List EventResult
  | _, [] => []
  | len, e :: rest => stepResult e (len + 1) :: runSessionAux (len + 1) rest

/-- A session starting from an empty drawings table. -/
def runSession (events : List ProcEvent) : List EventResult :=
  runSessionAux 0 events

/-- Numeric value of a decimal digit character. -/
def digitVal (c : Char) : Nat := c.toNat - 48

/-- Decimal decoding, left inverse of `natToChars`. -/
def charsToNat (s : Str) : Nat :=
  s.foldl (fun acc c => acc * 10 + digitVal c) 0

/-! ### Concrete instances used by the witnesses -/

/-- A parsed cylinder record with 9 of the 11 expected fields non-empty
(MOUNTING and ROD END missing). -/
def parsed9 : Dict :=
  [(s2l "CYLINDER ACTION", s2l "DOUBLE"), (s2l "BORE DIAMETER", s2l "50 MM"),
   (s2l "ROD DIAMETER", s2l "28 MM"), (s2l "STROKE LENGTH", s2l "160 MM"),
   (s2l "CLOSE LENGTH", s2l "300 MM"), (s2l "OPERATING PRESSURE", s2l "210 BAR"),
   (s2l "OPERATING TEMPERATURE", s2l "60 DEG C"), (s2l "MOUNTING", []),
   (s2l "ROD END", []), (s2l "FLUID", s2l "HYD. OIL MINERAL"),
   (s2l "DRAWING NUMBER", s2l "D-123")]

/-- Both environment keys configured, first key active. -/
def twoKeysA : KeyState :=
  { apiKey := some (s2l "KEYA"), apiKey1 := some (s2l "KEYB"),
    current := some (s2l "KEYA") }

/-- Both environment keys configured, second key active. -/
def twoKeysB : KeyState :=
  { apiKey := some (s2l "KEYA"), apiKey1 := some (s2l "KEYB"),
    current := some (s2l "KEYB") }

/-- Only the first environment key configured. -/
def oneKeyOnly : KeyState :=
  { apiKey := some (s2l "KEYA"), apiKey1 := none,
    current := some (s2l "KEYA") }

/-- A valve record with 3 of 4 expected fields extracted, its table row as
the completion step computed it, and a pending edit filling the MAKE field. -/
def valveSaveState : SaveState :=
  { results :=
      [(s2l "MODEL NO", s2l "SPVF M 25 A 2F 1 A12"),
       (s2l "SIZE OF VALVE", s2l "25 mm"),
       (s2l "PRESSURE RATING", s2l "4...12 BAR"),
       (s2l "MAKE", [])]
    edited := [(s2l "MAKE", s2l "KRACHT")]
    feedbackData := []
    showFeedbackPopup := false
    row :=
      { status := s2l "Needs Review!", count := s2l "3/4",
        confidence := s2l "75%" } }

/-- Two single-image events whose identifying fields are missing, so both
identifiers are synthesized. -/
def twoSynthEvents : List ProcEvent :=
  [{ drawingType := s2l "CYLINDER", outcome := some [], suffix := [] },
   { drawingType := s2l "VALVE", outcome := some [], suffix := [] }]

/-! ### Supporting lemmas about the dict model -/

theorem memS_eq_true_iff (x : Str) : ∀ l : List Str, memS x l = true ↔ x ∈ l := by
  intro l
  induction l with
  | nil => simp [memS]
  | cons y ys ih =>
    simp only [memS, List.mem_cons]
    by_cases h : y = x
    · simp [h]
    · rw [if_neg h, ih]
      constructor
      · exact Or.inr
      · rintro (rfl | hm)
        · exact absurd rfl h
        · exact hm

theorem dictHasKey_iff_mem (k : Str) :
    ∀ d : Dict, dictHasKey k d = true ↔ k ∈ d.map Prod.fst := by
  intro d
  induction d with
  | nil => simp [dictHasKey]
  | cons p rest ih =>
    obtain ⟨q, v⟩ := p
    simp only [dictHasKey, List.map_cons, List.mem_cons]
    by_cases h : q = k
    · simp [h]
    · rw [if_neg h, ih]
      constructor
      · exact Or.inr
      · rintro (rfl | hm)
        · exact absurd rfl h
        · exact hm

theorem dictInsert_keys (d : Dict) (k v : Str) :
    (dictInsert d k v).map Prod.fst =
      if dictHasKey k d = true then d.map Prod.fst
      else d.map Prod.fst ++ [k] := by
  unfold dictInsert
  by_cases h : dictHasKey k d = true
  · rw [if_pos h, if_pos h, List.map_map]
    have hfn : (Prod.fst ∘ fun p : Str × Str => if p.1 = k then (k, v) else p)
        = Prod.fst := by
      funext p
      by_cases hp : p.1 = k
      · simp [hp]
      · simp [hp]
    rw [hfn]
  · rw [if_neg h, if_neg h, List.map_append]
    rfl

theorem dictHasKey_insert (d : Dict) (k v k2 : Str)
    (h : dictHasKey k2 (dictInsert d k v) = true) :
    k2 = k ∨ dictHasKey k2 d = true := by
  rw [dictHasKey_iff_mem]
  rw [dictHasKey_iff_mem, dictInsert_keys] at h
  by_cases hk : dictHasKey k d = true
  · rw [if_pos hk] at h
    exact Or.inr h
  · rw [if_neg hk] at h
    rcases List.mem_append.mp h with hm | hm
    · exact Or.inr hm
    · exact Or.inl (List.mem_singleton.mp hm)

theorem mem_dictInsert {d : Dict} {k v : Str} {q : Str × Str}
    (h : q ∈ dictInsert d k v) : q ∈ d ∨ q = (k, v) := by
  unfold dictInsert at h
  by_cases hk : dictHasKey k d = true
  · rw [if_pos hk] at h
    rcases List.mem_map.mp h with ⟨p, hp, hq⟩
    by_cases hpk : p.1 = k
    · rw [if_pos hpk] at hq
      exact Or.inr hq.symm
    · rw [if_neg hpk] at hq
      exact Or.inl (hq ▸ hp)
  · rw [if_neg hk] at h
    rcases List.mem_append.mp h with hm | hm
    · exact Or.inl hm
    · exact Or.inr (List.mem_singleton.mp hm)

/-! ### Supporting lemmas about the parser -/

theorem parse_lines_key : ∀ (lines : List Str) (res : Dict) (k : Str),
    dictHasKey k (parse_lines res lines) = true →
    dictHasKey k res = true ∨
      lines.any (fun l => keyFromLine l = some k) = true := by
  intro lines
  induction lines with
  | nil => exact fun res k h => Or.inl h
  | cons line rest ih =>
    intro res k h
    cases hsp : splitFirst ':' line with
    | none =>
      rw [parse_lines, hsp] at h
      rcases ih res k h with h2 | h2
      · exact Or.inl h2
      · right
        simp [List.any_cons, h2]
    | some kv =>
      obtain ⟨k0, v0⟩ := kv
      rw [parse_lines, hsp] at h
      rcases ih _ k h with h2 | h2
      · rcases dictHasKey_insert _ _ _ _ h2 with hk | h3
        · right
          simp [List.any_cons, keyFromLine, hsp, hk]
        · exact Or.inl h3
      · right
        simp [List.any_cons, h2]

theorem normalizeValue_no_placeholder (v : Str) :
    containsPlaceholder (normalizeValue v) = false := by
  unfold normalizeValue
  by_cases h : containsPlaceholder v = true
  · rw [if_pos h]
    decide
  · rw [if_neg h]
    exact Bool.eq_false_iff.mpr h

theorem parse_lines_no_placeholder : ∀ (lines : List Str) (res : Dict),
    (∀ q ∈ res, containsPlaceholder q.2 = false) →
    ∀ q ∈ parse_lines res lines, containsPlaceholder q.2 = false := by
  intro lines
  induction lines with
  | nil => exact fun res hres q hq => hres q hq
  | cons line rest ih =>
    intro res hres q hq
    cases hsp : splitFirst ':' line with
    | none =>
      rw [parse_lines, hsp] at hq
      exact ih res hres q hq
    | some kv =>
      obtain ⟨k0, v0⟩ := kv
      rw [parse_lines, hsp] at hq
      refine ih _ ?_ q hq
      intro q2 hq2
      rcases mem_dictInsert hq2 with hm | rfl
      · exact hres q2 hm
      · exact normalizeValue_no_placeholder _

/-! ### Claim C1 -/

/-- C1 counterexample: for the CYLINDER category and a raw response that
omits the BORE DIAMETER line, the parsed record has no entry at all for that
expected field, refuting the claimed complete-key-set invariant. -/
theorem C1_counterexample :
    (s2l "BORE DIAMETER") ∈ get_parameters_for_type (s2l "CYLINDER")
    ∧ dictHasKey (s2l "BORE DIAMETER")
        (parse_ai_response (s2l "CYLINDER ACTION: DOUBLE")) = false := by
  decide

/-- C1 amended: the record produced by parse_ai_response contains entries
only for keys contributed by a colon-containing line of the raw text;
expected fields whose lines are absent are omitted from the record rather
than bound to the empty string. -/
theorem C1_keys_only_from_lines :
    ∀ (text k : Str), dictHasKey k (parse_ai_response text) = true →
      textHasKey text k = true := by
  intro text k h
  rcases parse_lines_key (splitChar '\n' text) [] k h with h2 | h2
  · simp [dictHasKey] at h2
  · exact h2

/-- C1 witness: the amended theorem applied to a concrete response. -/
theorem C1_witness :
    textHasKey (s2l "MODEL NO: X") (s2l "MODEL NO") = true :=
  C1_keys_only_from_lines (s2l "MODEL NO: X") (s2l "MODEL NO") (by decide)

/-! ### Claim C8 -/

/-- C8: a parsed value containing any case-insensitive variant of the
bracketed placeholder is normalized to the empty string; consequently no
binding of the parsed record retains a placeholder, and a line whose entire
value is such a token parses to the empty string. -/
theorem C8_placeholder_blanked :
    (∀ v : Str, containsPlaceholder v = true → normalizeValue v = [])
    ∧ (∀ (text : Str) (q : Str × Str), q ∈ parse_ai_response text →
        containsPlaceholder q.2 = false)
    ∧ dictGet (s2l "MOUNTING") []
        (parse_ai_response (s2l "MOUNTING: [VaLuE]")) = [] := by
  refine ⟨?_, ?_, by decide⟩
  · intro v hv
    unfold normalizeValue
    rw [if_pos hv]
  · intro text q hq
    refine parse_lines_no_placeholder _ [] ?_ q hq
    intro q2 hq2
    exact absurd hq2 (List.not_mem_nil q2)

/-- C8 witness: the placeholder rule applied to a concrete value. -/
theorem C8_witness : normalizeValue (s2l "[VALUES] MM") = [] :=
  C8_placeholder_blanked.1 (s2l "[VALUES] MM") (by decide)

/-! ### Claim C7 -/

/-- C7: the operating-temperature reduction maps the range
"40 TO 50 DEG C" to "50 DEG C" and "-10°C +60°C" to "60 DEG C", and is
idempotent on the already-scalar "60 DEG C". -/
theorem C7_temperature_range_reduction :
    processOperatingTemperature (s2l "40 TO 50 DEG C") = s2l "50 DEG C"
    ∧ processOperatingTemperature (s2l "-10°C +60°C") = s2l "60 DEG C"
    ∧ processOperatingTemperature (s2l "60 DEG C") = s2l "60 DEG C" := by
  decide

/-! ### Claim C4 -/

/-- C4 counterexample: the classifier response "THIS IS A CYLINDER" does
contain the category name CYLINDER as a substring, yet resolution returns the
raw response unchanged (neither the category token nor a failure marker),
refuting the claimed substring-containment rule. -/
theorem C4_counterexample :
    containsSub (s2l "CYLINDER")
      ((strip (s2l "THIS IS A CYLINDER")).map Char.toUpper) = true
    ∧ identify_drawing_type_resolve (s2l "THIS IS A CYLINDER")
        = s2l "THIS IS A CYLINDER"
    ∧ identify_drawing_type_resolve (s2l "THIS IS A CYLINDER")
        ≠ s2l "CYLINDER" := by
  decide

/-- C4 amended: resolution is by exact membership of the stripped,
upper-cased response in the six known tokens, not substring containment; a
literal UNKNOWN yields the identification-failure message, and any other
unmatched response is returned verbatim with no failure marker added. -/
theorem C4_exact_match_resolution :
    (∀ r : Str, containsSub (s2l "❌") r = false →
      memS ((strip r).map Char.toUpper) knownTypeTokens = false →
      identify_drawing_type_resolve r = r)
    ∧ identify_drawing_type_resolve (s2l "  cylinder  ") = s2l "CYLINDER"
    ∧ identify_drawing_type_resolve (s2l "UNKNOWN")
        = s2l "❌ Could not identify drawing type" := by
  refine ⟨?_, by decide, by decide⟩
  intro r h1 h2
  unfold identify_drawing_type_resolve
  rw [if_neg (by simp [h1]), if_neg (by simp [h2])]

/-- C4 witness: the amended theorem applied to a response that matches no
known token. -/
theorem C4_witness :
    identify_drawing_type_resolve (s2l "A HEX BOLT") = s2l "A HEX BOLT" :=
  C4_exact_match_resolution.1 (s2l "A HEX BOLT") (by decide) (by decide)

/-! ### Claim C6 -/

/-- C6 counterexample: a 401 error with both keys configured is surfaced
immediately as an authentication failure, with no key switch and no retry,
refuting the claim that 401 is treated as retryable. -/
theorem C6_counterexample :
    handle_api_response twoKeysA (.dict (some 401) (s2l "Invalid API key"))
      = (twoKeysA,
         .returnedNone (s2l "❌ Authentication failed: Please check your API key")) := by
  decide

/-- C6 amended: every 401 error, whatever the key state and message, is
surfaced immediately as an authentication error without rotating keys; only
a 429 error whose message mentions quota triggers rotation and retry. -/
theorem C6_auth_error_not_retried :
    ∀ (ks : KeyState) (msg : Str),
      handle_api_response ks (.dict (some 401) msg)
        = (ks,
           .returnedNone (s2l "❌ Authentication failed: Please check your API key")) := by
  intro ks msg
  simp [handle_api_response]

/-! ### Claim C3 -/

theorem retry_two_keys_never_stops : ∀ fuel : Nat,
    retry_all_quota fuel twoKeysA = .fuelOut
    ∧ retry_all_quota fuel twoKeysB = .fuelOut := by
  intro fuel
  induction fuel with
  | zero => exact ⟨rfl, rfl⟩
  | succ n ih =>
    have hA : handle_api_response twoKeysA (.dict (some 429) quotaMsg)
        = (twoKeysB, .retry) := by decide
    have hB : handle_api_response twoKeysB (.dict (some 429) quotaMsg)
        = (twoKeysA, .retry) := by decide
    constructor
    · rw [retry_all_quota, hA]
      exact ih.2
    · rw [retry_all_quota, hB]
      exact ih.1

/-- C3: with two configured credentials and every attempt answering HTTP 429
with a quota message, the retry recursion never terminates on its own (it
consumes any amount of fuel, alternating between the two keys, and never
reaches the all-keys-exhausted report); the exhaustion report is reached only
when no alternate key is configured. -/
theorem C3_two_keys_unbounded_retry :
    (∀ fuel : Nat, retry_all_quota fuel twoKeysA = .fuelOut)
    ∧ retry_all_quota 3 oneKeyOnly
        = .errorMsg (s2l "❌ All API keys have reached their quota limits!") := by
  exact ⟨fun fuel => (retry_two_keys_never_stops fuel).1, by decide⟩

/-! ### Claim C2 -/

/-- C2: at extraction completion with m non-empty of n expected fields, an
error yields a Failed row with confidence 0% and count 0/0; m equal to n
yields Completed; otherwise the row is Needs Review! with count m/n and
confidence the rounded percentage; in particular 9 of 11 yields
Needs Review!, 9/11, 82%. -/
theorem C2_completion_scoring (t : Str) (parsed : Dict)
    (ht : memS t builtinTypes = true) :
    update_on_failure = ⟨s2l "Failed", s2l "0/0", s2l "0%"⟩
    ∧ (countNonEmpty (get_parameters_for_type t) parsed
          = (get_parameters_for_type t).length →
        update_on_success t parsed = some
          ⟨s2l "Completed",
           natToChars (countNonEmpty (get_parameters_for_type t) parsed)
             ++ s2l "/" ++ natToChars (get_parameters_for_type t).length,
           natToChars (roundHalfEvenNat
               (100 * countNonEmpty (get_parameters_for_type t) parsed)
               (get_parameters_for_type t).length) ++ s2l "%"⟩)
    ∧ (countNonEmpty (get_parameters_for_type t) parsed
          ≠ (get_parameters_for_type t).length →
        update_on_success t parsed = some
          ⟨s2l "Needs Review!",
           natToChars (countNonEmpty (get_parameters_for_type t) parsed)
             ++ s2l "/" ++ natToChars (get_parameters_for_type t).length,
           natToChars (roundHalfEvenNat
               (100 * countNonEmpty (get_parameters_for_type t) parsed)
               (get_parameters_for_type t).length) ++ s2l "%"⟩)
    ∧ (t = s2l "CYLINDER" →
        countNonEmpty (get_parameters_for_type t) parsed = 9 →
        update_on_success t parsed = some
          ⟨s2l "Needs Review!", s2l "9/11", s2l "82%"⟩) := by
  have hn : ¬ (get_parameters_for_type t).length = 0 := by
    rw [memS_eq_true_iff] at ht
    simp only [builtinTypes, List.mem_cons, List.not_mem_nil, or_false] at ht
    rcases ht with rfl | rfl | rfl | rfl | rfl <;> decide
  refine ⟨rfl, ?_, ?_, ?_⟩
  · intro hm
    unfold update_on_success
    rw [if_neg hn, if_pos hm]
  · intro hm
    unfold update_on_success
    rw [if_neg hn, if_neg hm]
  · rintro rfl h9
    unfold update_on_success
    rw [if_neg (by decide), h9]
    decide

/-- C2 witness: the 9-of-11 cylinder scenario. -/
theorem C2_witness :
    update_on_success (s2l "CYLINDER") parsed9
      = some ⟨s2l "Needs Review!", s2l "9/11", s2l "82%"⟩ :=
  (C2_completion_scoring (s2l "CYLINDER") parsed9 (by decide)).2.2.2 rfl (by decide)

/-! ### Claim C10 -/

/-- C10: every drawing type outside the five built-ins gets the empty
parameter list, on which the unguarded division of the completion scoring by the
list length is undefined (modelled as none); for the five built-ins the
division is defined. -/
theorem C10_no_params_outside_builtins (t : Str) (parsed : Dict)
    (h : memS t builtinTypes = false) :
    get_parameters_for_type t = []
    ∧ update_on_success t parsed = none
    ∧ (∀ t2 : Str, memS t2 builtinTypes = true →
        update_on_success t2 parsed ≠ none) := by
  have h2 : ¬ t ∈ builtinTypes := by
    rw [← memS_eq_true_iff, h]
    simp
  simp only [builtinTypes, List.mem_cons, List.not_mem_nil, or_false,
    not_or] at h2
  obtain ⟨h1, h2, h3, h4, h5⟩ := h2
  have hparams : get_parameters_for_type t = [] := by
    unfold get_parameters_for_type
    rw [if_neg h1, if_neg h2, if_neg h3, if_neg h4, if_neg h5]
  refine ⟨hparams, ?_, ?_⟩
  · unfold update_on_success
    rw [hparams]
    simp
  · intro t2 ht2
    rw [memS_eq_true_iff] at ht2
    simp only [builtinTypes, List.mem_cons, List.not_mem_nil, or_false] at ht2
    rcases ht2 with rfl | rfl | rfl | rfl | rfl <;>
      · unfold update_on_success
        rw [if_neg (by decide)]
        simp

/-- C10 witness: a custom product type outside the built-ins. -/
theorem C10_witness : update_on_success (s2l "BEARING") parsed9 = none :=
  (C10_no_params_outside_builtins (s2l "BEARING") parsed9 (by decide)).2.1

/-! ### Supporting lemmas about dict lookup after insertion -/

theorem dictGet_nil (k dflt : Str) : dictGet k dflt [] = dflt := rfl

theorem dictGet_cons (k dflt q v : Str) (rest : Dict) :
    dictGet k dflt ((q, v) :: rest)
      = if q = k then v else dictGet k dflt rest := rfl

theorem dictHasKey_cons (k q v : Str) (rest : Dict) :
    dictHasKey k ((q, v) :: rest)
      = if q = k then true else dictHasKey k rest := rfl

theorem dictGet_map_update (k v dflt : Str) : ∀ d : Dict,
    dictHasKey k d = true →
    dictGet k dflt (d.map (fun p => if p.1 = k then (k, v) else p)) = v := by
  intro d
  induction d with
  | nil => intro h; simp [dictHasKey] at h
  | cons p rest ih =>
    obtain ⟨q, w⟩ := p
    intro h
    by_cases hq : q = k
    · subst hq
      simp [List.map_cons, dictGet_cons]
    · have h2 : dictHasKey k rest = true := by
        rw [dictHasKey_cons, if_neg hq] at h
        exact h
      simp only [List.map_cons]
      rw [if_neg hq, dictGet_cons, if_neg hq]
      exact ih h2

theorem dictGet_append_single (k v dflt : Str) : ∀ d : Dict,
    dictHasKey k d = false →
    dictGet k dflt (d ++ [(k, v)]) = v := by
  intro d
  induction d with
  | nil => intro h; simp [dictGet]
  | cons p rest ih =>
    obtain ⟨q, w⟩ := p
    intro h
    rw [dictHasKey_cons] at h
    by_cases hq : q = k
    · rw [if_pos hq] at h
      exact absurd h (by simp)
    · rw [if_neg hq] at h
      rw [List.cons_append, dictGet_cons, if_neg hq]
      exact ih h

theorem dictGet_insert_self (d : Dict) (k v dflt : Str) :
    dictGet k dflt (dictInsert d k v) = v := by
  unfold dictInsert
  by_cases h : dictHasKey k d = true
  · rw [if_pos h]
    exact dictGet_map_update k v dflt d h
  · rw [if_neg h]
    exact dictGet_append_single k v dflt d (Bool.eq_false_iff.mpr h)

theorem dictGet_map_update_ne (k v p dflt : Str) (hkp : ¬ k = p) : ∀ d : Dict,
    dictGet p dflt (d.map (fun q => if q.1 = k then (k, v) else q))
      = dictGet p dflt d := by
  intro d
  induction d with
  | nil => rfl
  | cons q rest ih =>
    obtain ⟨q1, w⟩ := q
    simp only [List.map_cons]
    by_cases hq : q1 = k
    · have hq1p : ¬ q1 = p := by
        rw [hq]
        exact hkp
      rw [if_pos hq, dictGet_cons, if_neg hkp, dictGet_cons, if_neg hq1p]
      exact ih
    · rw [if_neg hq, dictGet_cons, dictGet_cons]
      by_cases hq1p : q1 = p
      · rw [if_pos hq1p, if_pos hq1p]
      · rw [if_neg hq1p, if_neg hq1p]
        exact ih

theorem dictGet_append_single_ne (k v p dflt : Str) (hkp : ¬ k = p) :
    ∀ d : Dict, dictGet p dflt (d ++ [(k, v)]) = dictGet p dflt d := by
  intro d
  induction d with
  | nil =>
    rw [List.nil_append, dictGet_cons, if_neg hkp]
  | cons q rest ih =>
    obtain ⟨q1, w⟩ := q
    rw [List.cons_append, dictGet_cons, dictGet_cons]
    by_cases hq1p : q1 = p
    · rw [if_pos hq1p, if_pos hq1p]
    · rw [if_neg hq1p, if_neg hq1p]
      exact ih

theorem dictGet_insert_ne (d : Dict) (k v p dflt : Str) (hkp : ¬ k = p) :
    dictGet p dflt (dictInsert d k v) = dictGet p dflt d := by
  unfold dictInsert
  by_cases h : dictHasKey k d = true
  · rw [if_pos h]
    exact dictGet_map_update_ne k v p dflt hkp d
  · rw [if_neg h]
    exact dictGet_append_single_ne k v p dflt hkp d

/-! ### Supporting lemmas about the save-changes handler -/

theorem apply_edits_get_not_key (p dflt : Str) : ∀ (edits res : Dict),
    ¬ p ∈ edits.map Prod.fst →
    dictGet p dflt (apply_edits res edits) = dictGet p dflt res := by
  intro edits
  induction edits with
  | nil => intro res _; rfl
  | cons e rest ih =>
    obtain ⟨q, w⟩ := e
    intro res h
    simp only [List.map_cons, List.mem_cons, not_or] at h
    obtain ⟨hpq, hrest⟩ := h
    unfold apply_edits
    rw [ih _ hrest]
    by_cases hw : strip w ≠ []
    · rw [if_pos hw]
      exact dictGet_insert_ne res q w p dflt (fun hq => hpq hq.symm)
    · rw [if_neg hw]

theorem apply_edits_get_mem (p v dflt : Str) : ∀ (edits res : Dict),
    (edits.map Prod.fst).Nodup → (p, v) ∈ edits → strip v ≠ [] →
    dictGet p dflt (apply_edits res edits) = v := by
  intro edits
  induction edits with
  | nil => intro res _ hmem; exact absurd hmem (List.not_mem_nil _)
  | cons e rest ih =>
    obtain ⟨q, w⟩ := e
    intro res hnodup hmem hv
    simp only [List.map_cons, List.nodup_cons] at hnodup
    obtain ⟨hqnot, hnodup2⟩ := hnodup
    rcases List.mem_cons.mp hmem with heq | hmem2
    · injection heq with h1 h2
      subst h1
      subst h2
      unfold apply_edits
      rw [if_pos hv, apply_edits_get_not_key p dflt rest _ hqnot]
      exact dictGet_insert_self res p v dflt
    · unfold apply_edits
      exact ih _ hnodup2 hmem2 hv

theorem apply_edits_get_skip (p v dflt : Str) : ∀ (edits res : Dict),
    (edits.map Prod.fst).Nodup → (p, v) ∈ edits → strip v = [] →
    dictGet p dflt (apply_edits res edits) = dictGet p dflt res := by
  intro edits
  induction edits with
  | nil => intro res _ hmem; exact absurd hmem (List.not_mem_nil _)
  | cons e rest ih =>
    obtain ⟨q, w⟩ := e
    intro res hnodup hmem hv
    simp only [List.map_cons, List.nodup_cons] at hnodup
    obtain ⟨hqnot, hnodup2⟩ := hnodup
    rcases List.mem_cons.mp hmem with heq | hmem2
    · injection heq with h1 h2
      subst h1
      subst h2
      unfold apply_edits
      rw [if_neg (by simp [hv])]
      exact apply_edits_get_not_key p dflt rest res hqnot
    · have hpkeys : p ∈ rest.map Prod.fst :=
        List.mem_map.mpr ⟨(p, v), hmem2, rfl⟩
      have hqp : ¬ q = p := fun h => hqnot (h ▸ hpkeys)
      unfold apply_edits
      rw [ih _ hnodup2 hmem2 hv]
      by_cases hw : strip w ≠ []
      · rw [if_pos hw]
        exact dictGet_insert_ne res q w p dflt hqp
      · rw [if_neg hw]

theorem collect_feedback_count_zero (p : Str) : ∀ (edits res : Dict),
    ¬ p ∈ edits.map Prod.fst →
    countDeltasFor p (collect_feedback res edits) = 0 := by
  intro edits
  induction edits with
  | nil => intro res _; rfl
  | cons e rest ih =>
    obtain ⟨q, w⟩ := e
    intro res h
    simp only [List.map_cons, List.mem_cons, not_or] at h
    obtain ⟨hpq, hrest⟩ := h
    unfold collect_feedback
    by_cases hcond : strip w ≠ [] ∧ w ≠ dictGet q [] res
    · rw [if_pos hcond]
      unfold countDeltasFor
      rw [if_neg (fun h2 => hpq h2.symm)]
      simp [ih _ hrest]
    · rw [if_neg hcond]
      exact ih _ hrest

theorem collect_feedback_count_one (p v : Str) : ∀ (edits res : Dict),
    (edits.map Prod.fst).Nodup → (p, v) ∈ edits → strip v ≠ [] →
    v ≠ dictGet p [] res →
    countDeltasFor p (collect_feedback res edits) = 1 := by
  intro edits
  induction edits with
  | nil => intro res _ hmem; exact absurd hmem (List.not_mem_nil _)
  | cons e rest ih =>
    obtain ⟨q, w⟩ := e
    intro res hnodup hmem hv hne
    simp only [List.map_cons, List.nodup_cons] at hnodup
    obtain ⟨hqnot, hnodup2⟩ := hnodup
    rcases List.mem_cons.mp hmem with heq | hmem2
    · injection heq with h1 h2
      subst h1
      subst h2
      unfold collect_feedback
      rw [if_pos ⟨hv, hne⟩]
      unfold countDeltasFor
      rw [if_pos rfl]
      simp [collect_feedback_count_zero p rest res hqnot]
    · have hpkeys : p ∈ rest.map Prod.fst :=
        List.mem_map.mpr ⟨(p, v), hmem2, rfl⟩
      have hqp : ¬ q = p := fun h => hqnot (h ▸ hpkeys)
      unfold collect_feedback
      by_cases hcond : strip w ≠ [] ∧ w ≠ dictGet q [] res
      · rw [if_pos hcond]
        unfold countDeltasFor
        rw [if_neg hqp]
        simp [ih _ hnodup2 hmem2 hv hne]
      · rw [if_neg hcond]
        exact ih _ hnodup2 hmem2 hv hne

/-! ### Claim C5 -/

/-- C5 counterexample: saving a correction that fills the last empty valve
field makes all 4 of 4 expected fields non-empty, yet the table row of the
drawing is untouched by the save handler: its status stays Needs Review! instead
of being recomputed to Completed, refuting the claimed recomputation. -/
theorem C5_counterexample :
    countNonEmpty (get_parameters_for_type (s2l "VALVE"))
        (save_changes valveSaveState).results
      = (get_parameters_for_type (s2l "VALVE")).length
    ∧ (save_changes valveSaveState).row.status = s2l "Needs Review!"
    ∧ (save_changes valveSaveState).row.status ≠ s2l "Completed"
    ∧ (save_changes valveSaveState).row = valveSaveState.row := by
  decide

/-- C5 amended: on save, empty corrections leave the stored field unchanged,
each non-empty correction overwrites the stored value, each non-empty
changed correction yields exactly one feedback delta, and the row holding
status, count and confidence is not recomputed: it carries over
unchanged. -/
theorem C5_save_behaviour (st : SaveState)
    (hnodup : (st.edited.map Prod.fst).Nodup) :
    (∀ p v : Str, (p, v) ∈ st.edited → strip v = [] →
      dictGet p [] (save_changes st).results = dictGet p [] st.results)
    ∧ (∀ p v : Str, (p, v) ∈ st.edited → strip v ≠ [] →
      dictGet p [] (save_changes st).results = v)
    ∧ (∀ p v : Str, (p, v) ∈ st.edited → strip v ≠ [] →
      v ≠ dictGet p [] st.results →
      countDeltasFor p (collect_feedback st.results st.edited) = 1)
    ∧ (save_changes st).row = st.row := by
  refine ⟨?_, ?_, ?_, rfl⟩
  · intro p v hmem hv
    exact apply_edits_get_skip p v [] st.edited st.results hnodup hmem hv
  · intro p v hmem hv
    exact apply_edits_get_mem p v [] st.edited st.results hnodup hmem hv
  · intro p v hmem hv hne
    exact collect_feedback_count_one p v st.edited st.results hnodup hmem hv hne

/-- C5 witness: the concrete valve correction applied through the amended
theorem. -/
theorem C5_witness :
    dictGet (s2l "MAKE") [] (save_changes valveSaveState).results
      = s2l "KRACHT" :=
  (C5_save_behaviour valveSaveState (by decide)).2.1 (s2l "MAKE")
    (s2l "KRACHT") (by decide) (by decide)

/-! ### Supporting lemmas about decimal rendering -/

theorem digitChar_isDigit (m : Nat) (h : m < 10) :
    (Nat.digitChar m).isDigit = true := by
  interval_cases m <;> decide

theorem digitVal_digitChar (m : Nat) (h : m < 10) :
    digitVal (Nat.digitChar m) = m := by
  interval_cases m <;> decide

theorem natDigitsGo_digits : ∀ (fuel n : Nat), ∀ c ∈ natDigitsGo fuel n,
    c.isDigit = true := by
  intro fuel
  induction fuel with
  | zero => intro n c hc; exact absurd hc (List.not_mem_nil c)
  | succ f ih =>
    intro n c hc
    unfold natDigitsGo at hc
    by_cases h : n < 10
    · rw [if_pos h] at hc
      rw [List.mem_singleton] at hc
      subst hc
      exact digitChar_isDigit n h
    · rw [if_neg h] at hc
      rcases List.mem_append.mp hc with hm | hm
      · exact ih _ c hm
      · rw [List.mem_singleton] at hm
        subst hm
        exact digitChar_isDigit _ (Nat.mod_lt n (by omega))

theorem natToChars_digits (n : Nat) : ∀ c ∈ natToChars n, c.isDigit = true :=
  natDigitsGo_digits (n + 1) n

theorem charsToNat_append_digit (s : Str) (c : Char) :
    charsToNat (s ++ [c]) = charsToNat s * 10 + digitVal c := by
  unfold charsToNat
  rw [List.foldl_append]
  rfl

theorem charsToNat_natDigitsGo : ∀ (fuel n : Nat), n < fuel →
    charsToNat (natDigitsGo fuel n) = n := by
  intro fuel
  induction fuel with
  | zero => intro n h; exact absurd h (Nat.not_lt_zero n)
  | succ f ih =>
    intro n h
    unfold natDigitsGo
    by_cases h10 : n < 10
    · rw [if_pos h10]
      show charsToNat ([] ++ [Nat.digitChar n]) = n
      rw [charsToNat_append_digit, digitVal_digitChar n h10]
      have h0 : charsToNat [] = 0 := rfl
      rw [h0]
      omega
    · rw [if_neg h10]
      rw [charsToNat_append_digit]
      have hdiv : n / 10 < f := by
        have h1 : n / 10 < n := Nat.div_lt_self (by omega) (by omega)
        omega
      rw [ih _ hdiv, digitVal_digitChar _ (Nat.mod_lt n (by omega))]
      have := Nat.div_add_mod n 10
      omega

theorem natToChars_inj (a b : Nat) (h : natToChars a = natToChars b) :
    a = b := by
  have ha : charsToNat (natToChars a) = a :=
    charsToNat_natDigitsGo (a + 1) a (Nat.lt_succ_self a)
  have hb : charsToNat (natToChars b) = b :=
    charsToNat_natDigitsGo (b + 1) b (Nat.lt_succ_self b)
  rw [← ha, ← hb, h]

/-- Two strings of the shape prefix, underscore, digit block are equal only
when the digit blocks agree: scanning from the left, a digit block of one
side can never absorb the underscore of the other side. -/
theorem underscore_digits_inj : ∀ (t1 t2 d1 d2 : Str),
    (∀ c ∈ d1, c.isDigit = true) → (∀ c ∈ d2, c.isDigit = true) →
    t1 ++ '_' :: d1 = t2 ++ '_' :: d2 → d1 = d2 := by
  intro t1
  induction t1 with
  | nil =>
    intro t2 d1 d2 h1 h2 heq
    cases t2 with
    | nil =>
      rw [List.nil_append, List.nil_append] at heq
      injection heq
    | cons c t2tl =>
      rw [List.nil_append, List.cons_append] at heq
      injection heq with hc htl
      have hmem : ('_' : Char) ∈ d1 := by
        rw [htl]
        exact List.mem_append.mpr (Or.inr (List.mem_cons_self _ _))
      exact absurd (h1 _ hmem) (by decide)
  | cons c t1tl ih =>
    intro t2 d1 d2 h1 h2 heq
    cases t2 with
    | nil =>
      rw [List.nil_append, List.cons_append] at heq
      injection heq with hc htl
      have hmem : ('_' : Char) ∈ d2 := by
        rw [← htl]
        exact List.mem_append.mpr (Or.inr (List.mem_cons_self _ _))
      exact absurd (h2 _ hmem) (by decide)
    | cons c2 t2tl =>
      rw [List.cons_append, List.cons_append] at heq
      injection heq with hc htl
      exact ih t2tl d1 d2 h1 h2 htl

/-! ### Supporting lemmas about the session loop -/

theorem runSessionAux_getElem : ∀ (events : List ProcEvent) (len i : Nat)
    (e : ProcEvent), events[i]? = some e →
    (runSessionAux len events)[i]? = some (stepResult e (len + i + 1)) := by
  intro events
  induction events with
  | nil => intro len i e h; simp at h
  | cons ev rest ih =>
    intro len i e h
    cases i with
    | zero =>
      rw [List.getElem?_cons_zero] at h
      injection h with h
      subst h
      unfold runSessionAux
      rw [List.getElem?_cons_zero]
    | succ i2 =>
      rw [List.getElem?_cons_succ] at h
      unfold runSessionAux
      rw [List.getElem?_cons_succ, ih (len + 1) i2 e h]
      have harith : len + 1 + i2 + 1 = len + (i2 + 1) + 1 := by omega
      rw [harith]

theorem stepResult_synthesized (e : ProcEvent) (n : Nat) (id : Str)
    (h : stepResult e n = .synthesizedId id) :
    id = e.drawingType ++ s2l "_" ++ (natToChars n ++ e.suffix) := by
  unfold stepResult at h
  split at h
  · exact absurd h (by simp)
  next parsed hout =>
    split at h
    next s hres =>
      injection h with h
      subst h
      unfold resolve_identifier at hres
      by_cases hdn : resolved_dn e.drawingType parsed = []
          ∨ resolved_dn e.drawingType parsed = s2l "Unknown"
      · rw [if_pos hdn] at hres
        injection hres with h1 h2
        rw [← h2, List.append_assoc]
      · rw [if_neg hdn] at hres
        injection hres with h1 h2
        exact absurd h1 (by simp)
    next s hres => exact absurd h (by simp)

/-! ### Claim C9 -/

/-- C9 counterexample: for page 2 of a multi-page file the synthesized
identifier carries a page suffix, so it is not of the claimed shape
category underscore count. -/
theorem C9_counterexample :
    resolve_identifier (s2l "CYLINDER") [] 3 (s2l "_page_2")
      = (true, s2l "CYLINDER_3_page_2")
    ∧ s2l "CYLINDER_3_page_2" ≠ s2l "CYLINDER" ++ s2l "_" ++ natToChars 3 := by
  decide

/-- C9 amended: in a session, an event whose identifying field is missing
gets the synthesized identifier drawingType underscore n followed by the page
suffix, where n is the table length including the freshly appended row of
the event itself (its 1-based position in the session); for single-image events
(empty suffix) the identifier is exactly of that shape and two distinct such
events always receive distinct identifiers. -/
theorem C9_synthesized_identifier_unique (events : List ProcEvent)
    (i j : Nat) (ei ej : ProcEvent)
    (hi : events[i]? = some ei) (hj : events[j]? = some ej)
    (hij : i ≠ j) (hsi : ei.suffix = []) (hsj : ej.suffix = [])
    (idi idj : Str)
    (h1 : (runSession events)[i]? = some (.synthesizedId idi))
    (h2 : (runSession events)[j]? = some (.synthesizedId idj)) :
    idi = ei.drawingType ++ s2l "_" ++ natToChars (i + 1)
    ∧ idj = ej.drawingType ++ s2l "_" ++ natToChars (j + 1)
    ∧ idi ≠ idj := by
  have hi2 := runSessionAux_getElem events 0 i ei hi
  have hj2 := runSessionAux_getElem events 0 j ej hj
  unfold runSession at h1 h2
  rw [hi2] at h1
  rw [hj2] at h2
  injection h1 with h1
  injection h2 with h2
  have hfi := stepResult_synthesized ei (0 + i + 1) idi h1
  have hfj := stepResult_synthesized ej (0 + j + 1) idj h2
  rw [hsi, List.append_nil, Nat.zero_add] at hfi
  rw [hsj, List.append_nil, Nat.zero_add] at hfj
  refine ⟨hfi, hfj, ?_⟩
  intro heq
  rw [hfi, hfj] at heq
  have hus : s2l "_" = ['_'] := by decide
  have hcons : ∀ (t d : Str), t ++ s2l "_" ++ d = t ++ '_' :: d := by
    intro t d
    rw [hus, List.append_assoc, List.singleton_append]
  rw [hcons, hcons] at heq
  have h5 := underscore_digits_inj _ _ _ _ (natToChars_digits (i + 1))
    (natToChars_digits (j + 1)) heq
  have h6 := natToChars_inj _ _ h5
  omega

/-- C9 witness: two synthesized identifiers from a concrete session, shown
distinct by the amended theorem. -/
theorem C9_witness :
    s2l "CYLINDER_1" = s2l "CYLINDER" ++ s2l "_" ++ natToChars 1
    ∧ s2l "VALVE_2" = s2l "VALVE" ++ s2l "_" ++ natToChars 2
    ∧ s2l "CYLINDER_1" ≠ s2l "VALVE_2" :=
  C9_synthesized_identifier_unique twoSynthEvents 0 1
    { drawingType := s2l "CYLINDER", outcome := some [], suffix := [] }
    { drawingType := s2l "VALVE", outcome := some [], suffix := [] }
    (by decide) (by decide) (by decide) rfl rfl
    (s2l "CYLINDER_1") (s2l "VALVE_2") (by decide) (by decide)

end Vision
